import Mathlib

/-!
Verification of `stylus-sdk/src/abi/export.rs`.

The file embeds the two components of the ABI-export module:

* the identifier escaper `underscore_if_sol`, which prepends `" _"` to
  Solidity keywords and ambiguous numeric type names and `" "` to every
  other nonempty identifier; and
* the render driver `print_abi`, which writes a fixed header comment to
  standard output and then delegates to the entity's `fmt_abi`.

Modelling decisions, in order of appearance:

* The character class `\d` of the Rust `regex` crate is Unicode-aware by
  default: it matches any `\p{Nd}` decimal digit, not only ASCII `0`-`9`.
  It is embedded by `isNdDigit` (ASCII digits plus the other `Nd` ranges
  of the Unicode character database).  A capture such as `^uint(\d+)$`
  is then embedded as: the name starts with the literal prefix and the
  (nonempty) remainder consists of `\p{Nd}` digits; the captured group
  is that remainder.
* Rust's `caps[1].parse::<usize>().unwrap()` is embedded by `parseUsize`,
  which fails (models the `unwrap` panic) exactly when the captured
  digits are not all ASCII `0`-`9` (`InvalidDigit` — reachable, because
  `\p{Nd}` is wider than what `from_str` accepts) or when their value
  exceeds `usize::MAX` (`PosOverflow`); the escaper therefore returns
  `Option String`, with `none` marking the panic.  `usize::MAX` is taken
  as `2 ^ 64 - 1` (the largest word size the crate targets; the failing
  inputs exhibited below overflow 32-bit `usize` as well).
* The sequential `if let ... return` structure of `underscore_if_sol` is
  embedded as a chain of stage functions, one per early-return check.
* A `fmt::Formatter` sink is embedded as the string already written to
  it; `fmt_abi` maps the sink contents to the new contents plus a
  `fmt::Result`, and `print_abi` returns the final stdout contents
  together with the outcome of rendering the `AbiPrinter` display value.
-/

namespace StylusAbi

/-- `usize::MAX` for the 64-bit targets the export path runs on. -/
def USIZE_MAX : Nat := 2 ^ 64 - 1

/-- The non-ASCII ranges of the Unicode `Nd` (decimal digit) category,
as `(first, last)` code-point pairs (Unicode 15.1, the data the `regex`
crate's `\d` is built from). -/
def ndRangesNonAscii : List (Nat × Nat) :=
  [(0x0660, 0x0669), (0x06F0, 0x06F9), (0x07C0, 0x07C9), (0x0966, 0x096F),
   (0x09E6, 0x09EF), (0x0A66, 0x0A6F), (0x0AE6, 0x0AEF), (0x0B66, 0x0B6F),
   (0x0BE6, 0x0BEF), (0x0C66, 0x0C6F), (0x0CE6, 0x0CEF), (0x0D66, 0x0D6F),
   (0x0DE6, 0x0DEF), (0x0E50, 0x0E59), (0x0ED0, 0x0ED9), (0x0F20, 0x0F29),
   (0x1040, 0x1049), (0x1090, 0x1099), (0x17E0, 0x17E9), (0x1810, 0x1819),
   (0x1946, 0x194F), (0x19D0, 0x19D9), (0x1A80, 0x1A89), (0x1A90, 0x1A99),
   (0x1B50, 0x1B59), (0x1BB0, 0x1BB9), (0x1C40, 0x1C49), (0x1C50, 0x1C59),
   (0xA620, 0xA629), (0xA8D0, 0xA8D9), (0xA900, 0xA909), (0xA9D0, 0xA9D9),
   (0xA9F0, 0xA9F9), (0xAA50, 0xAA59), (0xABF0, 0xABF9), (0xFF10, 0xFF19),
   (0x104A0, 0x104A9), (0x10D30, 0x10D39), (0x11066, 0x1106F), (0x110F0, 0x110F9),
   (0x11136, 0x1113F), (0x111D0, 0x111D9), (0x112F0, 0x112F9), (0x11450, 0x11459),
   (0x114D0, 0x114D9), (0x11650, 0x11659), (0x116C0, 0x116C9), (0x11730, 0x11739),
   (0x118E0, 0x118E9), (0x11950, 0x11959), (0x11C50, 0x11C59), (0x11D50, 0x11D59),
   (0x11DA0, 0x11DA9), (0x11F50, 0x11F59), (0x16A60, 0x16A69), (0x16AC0, 0x16AC9),
   (0x16B50, 0x16B59), (0x1D7CE, 0x1D7FF), (0x1E140, 0x1E149), (0x1E2F0, 0x1E2F9),
   (0x1E4F0, 0x1E4F9), (0x1E950, 0x1E959), (0x1FBF0, 0x1FBF9)]

/-- The regex character class `\d` as the Rust `regex` crate matches it:
any Unicode `\p{Nd}` decimal digit — ASCII `0`-`9` or a digit of one of
the other decimal-digit scripts. -/
def isNdDigit (c : Char) : Bool :=
  c.isDigit || ndRangesNonAscii.any fun p => decide (p.1 ≤ c.toNat ∧ c.toNat ≤ p.2)

/-- A captured `(\d+)` group: a nonempty string of Unicode decimal digits. -/
def isDigits (l : List Char) : Bool := !l.isEmpty && l.all isNdDigit

/-- A nonempty string of ASCII digits `0`-`9`: the only digit strings
Rust's `<usize as FromStr>::from_str` accepts. -/
def isAsciiDigits (l : List Char) : Bool := !l.isEmpty && l.all Char.isDigit

/-- Numeric value of an ASCII decimal digit string (most significant
first). -/
def digitsVal (l : List Char) : Nat :=
  l.foldl (fun a c => 10 * a + (c.toNat - 48)) 0

/-- Rust's `<usize as FromStr>::from_str` on a captured `\d+` group:
succeeds with the value when the digits are all ASCII and the value fits
in `usize`; fails on a non-ASCII Unicode digit (`InvalidDigit`) or on
overflow (`PosOverflow`). -/
def parseUsize (l : List Char) : Option Nat :=
  if isAsciiDigits l ∧ digitsVal l ≤ USIZE_MAX then some (digitsVal l) else none

/-- The capture of the anchored regex `^pre(\d+)$` against `name`:
`some ds` when `name = pre ++ ds` with `ds` a nonempty digit string. -/
def captureSuffixDigits (pre name : String) : Option (List Char) :=
  if pre.data.isPrefixOf name.data then
    let rest := name.data.drop pre.data.length
    if isDigits rest then some rest else none
  else none

/-- The words of the final `match name` block of `underscore_if_sol`:
the ambiguous bare type names, the `is`/`contract`/`interface` words and
the reserved keywords, in source order. -/
def reservedWords : List String :=
  ["address", "bool", "int", "uint",
   "is", "contract", "interface",
   "after", "alias", "apply", "auto", "byte", "case", "copyof", "default",
   "define", "final", "implements", "in", "inline", "let", "macro", "match",
   "mutable", "null", "of", "partial", "promise", "reference", "relocatable",
   "sealed", "sizeof", "static", "supports", "switch", "typedef", "typeof", "var"]

/-- The final `match name` block of `underscore_if_sol`: empty stays
empty, a reserved word is escaped, anything else gets a leading space. -/
def matchStage (name : String) : String :=
  if name = "" then ""
  else if name ∈ reservedWords then " _" ++ name
  else " " ++ name

/-- The `BYTES_REGEX` check of `underscore_if_sol` and everything after
it; `none` models the `unwrap` panic on a capture that fails to parse as
`usize`. -/
def bytesStage (name : String) : Option String :=
  match captureSuffixDigits "bytes" name with
  | some ds =>
    match parseUsize ds with
    | none => none
    | some bits => if bits ≤ 32 then some (" _" ++ name) else some (matchStage name)
  | none => some (matchStage name)

/-- The `INT_REGEX` check of `underscore_if_sol` and everything after it. -/
def intStage (name : String) : Option String :=
  match captureSuffixDigits "int" name with
  | some ds =>
    match parseUsize ds with
    | none => none
    | some bits => if bits % 8 = 0 then some (" _" ++ name) else bytesStage name
  | none => bytesStage name

/-- `underscore_if_sol` from `export.rs`: the `UINT_REGEX` check followed
by the remaining stages.  `some out` is the returned string; `none` is
the panic of `caps[1].parse().unwrap()` on a capture that fails to parse
as `usize` — a non-ASCII Unicode digit or a value over `usize::MAX`. -/
def underscore_if_sol (name : String) : Option String :=
  match captureSuffixDigits "uint" name with
  | some ds =>
    match parseUsize ds with
    | none => none
    | some bits => if bits % 8 = 0 then some (" _" ++ name) else intStage name
  | none => intStage name

example : underscore_if_sol "uint256" = some " _uint256" := by decide
example : underscore_if_sol "uint7" = some " uint7" := by decide
example : underscore_if_sol "bytes33" = some " bytes33" := by decide
example : underscore_if_sol "" = some "" := by decide
example : underscore_if_sol "switch" = some " _switch" := by decide
example : underscore_if_sol "uint18446744073709551616" = none := by decide
example : underscore_if_sol "uint٧" = none := by decide
example : underscore_if_sol "bytes٧" = none := by decide

/-- The regex `^pre(\d+)$` matches and the captured digit group fails to
parse as `usize` — it contains a non-ASCII Unicode digit or its value
exceeds `usize::MAX` — so `parse().unwrap()` would panic. -/
def captureParseFails (pre name : String) : Bool :=
  match captureSuffixDigits pre name with
  | some ds => !(isAsciiDigits ds && decide (digitsVal ds ≤ USIZE_MAX))
  | none => false

/-- One of the three escaping-regex checks captures a digit group that
fails to parse as `usize` (the exact condition under which the escaper
panics). -/
def someCaptureParseFails (name : String) : Bool :=
  captureParseFails "uint" name || captureParseFails "int" name ||
    captureParseFails "bytes" name

example : someCaptureParseFails "uint٧" = true := by decide
example : someCaptureParseFails "uint18446744073709551616" = true := by decide
example : someCaptureParseFails "uint256" = false := by decide

/-- `name` is `uint<N>` with `N` divisible by 8. -/
def matchesUintAligned (name : String) : Bool :=
  match captureSuffixDigits "uint" name with
  | some ds => decide (digitsVal ds % 8 = 0)
  | none => false

/-- `name` is `int<N>` with `N` divisible by 8. -/
def matchesIntAligned (name : String) : Bool :=
  match captureSuffixDigits "int" name with
  | some ds => decide (digitsVal ds % 8 = 0)
  | none => false

/-- `name` is `bytes<N>` with `N ≤ 32`. -/
def matchesBytesSmall (name : String) : Bool :=
  match captureSuffixDigits "bytes" name with
  | some ds => decide (digitsVal ds ≤ 32)
  | none => false

/-- The name matches one of the three numeric-type patterns with its
predicate satisfied (width parsing aside): a byte-aligned `uint<N>` or
`int<N>`, or a `bytes<N>` with `N ≤ 32`. -/
def matchesEscapedNumeric (name : String) : Bool :=
  matchesUintAligned name || matchesIntAligned name || matchesBytesSmall name

/-! ## The render driver

`fmt::Error` carries no data; a `fmt::Formatter` sink is embedded as the
text already written to it. -/

/-- Rust's `core::fmt::Error` (a unit struct). -/
structure FmtError where

/-- The `GenerateAbi` trait: a static interface name and a render
procedure mapping the sink's contents to its new contents and a
`fmt::Result`. -/
structure GenerateAbiImpl where
  NAME : String
  fmt_abi : String → String × Except FmtError Unit

/-- The `Display` impl of `AbiPrinter<T>`: it delegates to `T::fmt_abi`
on the same formatter, unchanged. -/
def AbiPrinter.fmt (g : GenerateAbiImpl) (f : String) : String × Except FmtError Unit :=
  g.fmt_abi f

/-- The text emitted by the `println!` calls of `print_abi`: the fixed
four-line header comment block followed by one blank line. -/
def header : String :=
  "/**\n * This file was automatically generated by Stylus and represents a Rust program.\n * For more information, please see [The Stylus SDK](https://github.com/OffchainLabs/stylus-sdk-rs).\n */\n\n"

/-- `print_abi::<T>()`: writes the header to stdout, then renders the
`AbiPrinter` display value into stdout.  The result is the final stdout
contents paired with the outcome of that rendering (in the source a
formatting failure escapes `print!` and aborts the call). -/
def print_abi (g : GenerateAbiImpl) : String × Except FmtError Unit :=
  AbiPrinter.fmt g header

/-! ## Helper lemmas -/

lemma string_mk_ne_empty {l : List Char} (h : l ≠ []) : String.mk l ≠ "" := by
  intro he
  have h2 : (String.mk l).data = ("" : String).data := by rw [he]
  exact h (by simpa using h2)

lemma captureSuffixDigits_self (pre : String) {ds : List Char} (h : isDigits ds = true) :
    captureSuffixDigits pre (String.mk (pre.data ++ ds)) = some ds := by
  simp [captureSuffixDigits, List.drop_left, h]

lemma captureSuffixDigits_none_head {pre name : String} {a b : Char} {l r : List Char}
    (hp : pre.data = a :: l) (hn : name.data = b :: r) (h : (a == b) = false) :
    captureSuffixDigits pre name = none := by
  simp [captureSuffixDigits, hp, hn, List.isPrefixOf_cons₂, h]

lemma isDigits_of_ascii {l : List Char} (h : isAsciiDigits l = true) :
    isDigits l = true := by
  simp only [isAsciiDigits, Bool.and_eq_true] at h
  simp only [isDigits, Bool.and_eq_true]
  refine ⟨h.1, List.all_eq_true.mpr fun c hc => ?_⟩
  have h2 := List.all_eq_true.mp h.2 c hc
  simp only [isNdDigit]
  simp [h2]

lemma parseUsize_eq_some {ds : List Char} (h : isAsciiDigits ds = true)
    (hle : digitsVal ds ≤ USIZE_MAX) : parseUsize ds = some (digitsVal ds) := by
  simp [parseUsize, h, hle]

lemma reservedWords_no_digit :
    reservedWords.all (fun w => !(w.data.any Char.isDigit)) = true := by decide

lemma not_reserved_of_digit {s : String} (h : s.data.any Char.isDigit = true) :
    s ∉ reservedWords := by
  intro hmem
  have h2 : (!(s.data.any Char.isDigit)) = true :=
    List.all_eq_true.mp reservedWords_no_digit s hmem
  rw [h] at h2
  exact absurd h2 (by decide)

lemma any_digit_of_append (pre : List Char) {ds : List Char} (h : isAsciiDigits ds = true) :
    (pre ++ ds).any Char.isDigit = true := by
  simp only [isAsciiDigits, Bool.and_eq_true] at h
  obtain ⟨hne, hall⟩ := h
  cases ds with
  | nil => simp at hne
  | cons c t =>
    have hc : c.isDigit = true := by
      have h3 := List.all_eq_true.mp hall c (by simp)
      simpa using h3
    simp [List.any_append, hc]

lemma matchStage_other {name : String} (h1 : name ≠ "") (h2 : name ∉ reservedWords) :
    matchStage name = " " ++ name := by
  simp [matchStage, h1, h2]

lemma uintname_not_reserved {ds : List Char} (h : isAsciiDigits ds = true) :
    ("uint" ++ String.mk ds) ∉ reservedWords := by
  apply not_reserved_of_digit
  rw [show ("uint" ++ String.mk ds).data = ['u', 'i', 'n', 't'] ++ ds from rfl]
  exact any_digit_of_append _ h

lemma uintname_ne_empty (ds : List Char) : ("uint" ++ String.mk ds) ≠ "" := by
  rw [show ("uint" ++ String.mk ds) = String.mk ('u' :: ('i' :: ('n' :: ('t' :: ds)))) from rfl]
  exact string_mk_ne_empty (by simp)

lemma intStage_uintname {ds : List Char} (h : isAsciiDigits ds = true) :
    intStage ("uint" ++ String.mk ds) = some (" " ++ ("uint" ++ String.mk ds)) := by
  have hn : ("uint" ++ String.mk ds).data = 'u' :: ('i' :: ('n' :: ('t' :: ds))) := rfl
  have hint : captureSuffixDigits "int" ("uint" ++ String.mk ds) = none :=
    captureSuffixDigits_none_head rfl hn (by decide)
  have hbytes : captureSuffixDigits "bytes" ("uint" ++ String.mk ds) = none :=
    captureSuffixDigits_none_head rfl hn (by decide)
  simp only [intStage, hint, bytesStage, hbytes,
    matchStage_other (uintname_ne_empty ds) (uintname_not_reserved h)]

lemma uif_eval_uint {ds : List Char} (h : isAsciiDigits ds = true)
    (hle : digitsVal ds ≤ USIZE_MAX) :
    underscore_if_sol ("uint" ++ String.mk ds) =
      some ((if digitsVal ds % 8 = 0 then " _uint" else " uint") ++ String.mk ds) := by
  have hcap : captureSuffixDigits "uint" ("uint" ++ String.mk ds) = some ds := by
    rw [show ("uint" ++ String.mk ds) = String.mk ("uint".data ++ ds) from rfl]
    exact captureSuffixDigits_self "uint" (isDigits_of_ascii h)
  simp only [underscore_if_sol, hcap, parseUsize_eq_some h hle]
  by_cases h8 : digitsVal ds % 8 = 0
  · rw [if_pos h8, if_pos h8]; rfl
  · rw [if_neg h8, if_neg h8, intStage_uintname h]; rfl

lemma intname_not_reserved {ds : List Char} (h : isAsciiDigits ds = true) :
    ("int" ++ String.mk ds) ∉ reservedWords := by
  apply not_reserved_of_digit
  rw [show ("int" ++ String.mk ds).data = ['i', 'n', 't'] ++ ds from rfl]
  exact any_digit_of_append _ h

lemma intname_ne_empty (ds : List Char) : ("int" ++ String.mk ds) ≠ "" := by
  rw [show ("int" ++ String.mk ds) = String.mk ('i' :: ('n' :: ('t' :: ds))) from rfl]
  exact string_mk_ne_empty (by simp)

lemma uif_eval_int {ds : List Char} (h : isAsciiDigits ds = true)
    (hle : digitsVal ds ≤ USIZE_MAX) :
    underscore_if_sol ("int" ++ String.mk ds) =
      some ((if digitsVal ds % 8 = 0 then " _int" else " int") ++ String.mk ds) := by
  have hn : ("int" ++ String.mk ds).data = 'i' :: ('n' :: ('t' :: ds)) := rfl
  have huint : captureSuffixDigits "uint" ("int" ++ String.mk ds) = none :=
    captureSuffixDigits_none_head rfl hn (by decide)
  have hcap : captureSuffixDigits "int" ("int" ++ String.mk ds) = some ds := by
    rw [show ("int" ++ String.mk ds) = String.mk ("int".data ++ ds) from rfl]
    exact captureSuffixDigits_self "int" (isDigits_of_ascii h)
  have hbytes : captureSuffixDigits "bytes" ("int" ++ String.mk ds) = none :=
    captureSuffixDigits_none_head rfl hn (by decide)
  simp only [underscore_if_sol, huint, intStage, hcap, parseUsize_eq_some h hle]
  by_cases h8 : digitsVal ds % 8 = 0
  · rw [if_pos h8, if_pos h8]; rfl
  · rw [if_neg h8, if_neg h8]
    simp only [bytesStage, hbytes,
      matchStage_other (intname_ne_empty ds) (intname_not_reserved h)]
    rfl

lemma bytesname_not_reserved {ds : List Char} (h : isAsciiDigits ds = true) :
    ("bytes" ++ String.mk ds) ∉ reservedWords := by
  apply not_reserved_of_digit
  rw [show ("bytes" ++ String.mk ds).data = ['b', 'y', 't', 'e', 's'] ++ ds from rfl]
  exact any_digit_of_append _ h

lemma bytesname_ne_empty (ds : List Char) : ("bytes" ++ String.mk ds) ≠ "" := by
  rw [show ("bytes" ++ String.mk ds) =
        String.mk ('b' :: ('y' :: ('t' :: ('e' :: ('s' :: ds))))) from rfl]
  exact string_mk_ne_empty (by simp)

lemma uif_eval_bytes {ds : List Char} (h : isAsciiDigits ds = true)
    (hle : digitsVal ds ≤ USIZE_MAX) :
    underscore_if_sol ("bytes" ++ String.mk ds) =
      some ((if digitsVal ds ≤ 32 then " _bytes" else " bytes") ++ String.mk ds) := by
  have hn : ("bytes" ++ String.mk ds).data = 'b' :: ('y' :: ('t' :: ('e' :: ('s' :: ds)))) := rfl
  have huint : captureSuffixDigits "uint" ("bytes" ++ String.mk ds) = none :=
    captureSuffixDigits_none_head rfl hn (by decide)
  have hint : captureSuffixDigits "int" ("bytes" ++ String.mk ds) = none :=
    captureSuffixDigits_none_head rfl hn (by decide)
  have hcap : captureSuffixDigits "bytes" ("bytes" ++ String.mk ds) = some ds := by
    rw [show ("bytes" ++ String.mk ds) = String.mk ("bytes".data ++ ds) from rfl]
    exact captureSuffixDigits_self "bytes" (isDigits_of_ascii h)
  simp only [underscore_if_sol, huint, intStage, hint, bytesStage, hcap,
    parseUsize_eq_some h hle]
  by_cases h32 : digitsVal ds ≤ 32
  · rw [if_pos h32, if_pos h32]; rfl
  · rw [if_neg h32, if_neg h32,
      matchStage_other (bytesname_ne_empty ds) (bytesname_not_reserved h)]
    rfl

lemma parse_ok_of_fails_false {pre name : String} {ds : List Char}
    (h : captureParseFails pre name = false)
    (hcap : captureSuffixDigits pre name = some ds) :
    parseUsize ds = some (digitsVal ds) := by
  unfold captureParseFails at h
  rw [hcap] at h
  simp only [Bool.not_eq_false', Bool.and_eq_true, decide_eq_true_eq] at h
  exact parseUsize_eq_some h.1 h.2

lemma someCaptureParseFails_parts {name : String} (h : someCaptureParseFails name = false) :
    captureParseFails "uint" name = false ∧ captureParseFails "int" name = false ∧
      captureParseFails "bytes" name = false := by
  simp only [someCaptureParseFails, Bool.or_eq_false_iff] at h
  exact ⟨h.1.1, h.1.2, h.2⟩

lemma bytesStage_total {name : String} (h : captureParseFails "bytes" name = false) :
    ∃ out, bytesStage name = some out := by
  simp only [bytesStage]
  cases hcap : captureSuffixDigits "bytes" name with
  | none => exact ⟨_, rfl⟩
  | some ds =>
    dsimp only
    rw [parse_ok_of_fails_false h hcap]
    dsimp only
    split
    · exact ⟨_, rfl⟩
    · exact ⟨_, rfl⟩

lemma intStage_total {name : String} (hi : captureParseFails "int" name = false)
    (hb : captureParseFails "bytes" name = false) :
    ∃ out, intStage name = some out := by
  simp only [intStage]
  cases hcap : captureSuffixDigits "int" name with
  | none => exact bytesStage_total hb
  | some ds =>
    dsimp only
    rw [parse_ok_of_fails_false hi hcap]
    dsimp only
    split
    · exact ⟨_, rfl⟩
    · exact bytesStage_total hb

lemma uif_total {name : String} (h : someCaptureParseFails name = false) :
    ∃ out, underscore_if_sol name = some out := by
  obtain ⟨hu, hi, hb⟩ := someCaptureParseFails_parts h
  simp only [underscore_if_sol]
  cases hcap : captureSuffixDigits "uint" name with
  | none => exact intStage_total hi hb
  | some ds =>
    dsimp only
    rw [parse_ok_of_fails_false hu hcap]
    dsimp only
    split
    · exact ⟨_, rfl⟩
    · exact intStage_total hi hb

lemma matchesEscapedNumeric_parts {name : String} (h : matchesEscapedNumeric name = false) :
    matchesUintAligned name = false ∧ matchesIntAligned name = false ∧
      matchesBytesSmall name = false := by
  simp only [matchesEscapedNumeric, Bool.or_eq_false_iff] at h
  exact ⟨h.1.1, h.1.2, h.2⟩

lemma bytesStage_fallthrough {name : String} (h1 : name ≠ "") (h4 : name ∉ reservedWords)
    (hm : matchesBytesSmall name = false) (ho : captureParseFails "bytes" name = false) :
    bytesStage name = some (" " ++ name) := by
  simp only [bytesStage]
  cases hcap : captureSuffixDigits "bytes" name with
  | none => rw [matchStage_other h1 h4]
  | some ds =>
    dsimp only
    rw [parse_ok_of_fails_false ho hcap]
    dsimp only
    unfold matchesBytesSmall at hm
    rw [hcap] at hm
    rw [if_neg (by simpa using hm), matchStage_other h1 h4]

lemma intStage_fallthrough {name : String} (h1 : name ≠ "") (h4 : name ∉ reservedWords)
    (hmi : matchesIntAligned name = false) (hmb : matchesBytesSmall name = false)
    (hoi : captureParseFails "int" name = false)
    (hob : captureParseFails "bytes" name = false) :
    intStage name = some (" " ++ name) := by
  simp only [intStage]
  cases hcap : captureSuffixDigits "int" name with
  | none => exact bytesStage_fallthrough h1 h4 hmb hob
  | some ds =>
    dsimp only
    rw [parse_ok_of_fails_false hoi hcap]
    dsimp only
    unfold matchesIntAligned at hmi
    rw [hcap] at hmi
    rw [if_neg (by simpa using hmi)]
    exact bytesStage_fallthrough h1 h4 hmb hob

lemma uif_fallthrough {name : String} (h1 : name ≠ "")
    (hm : matchesEscapedNumeric name = false) (ho : someCaptureParseFails name = false)
    (h4 : name ∉ reservedWords) :
    underscore_if_sol name = some (" " ++ name) := by
  obtain ⟨hmu, hmi, hmb⟩ := matchesEscapedNumeric_parts hm
  obtain ⟨hou, hoi, hob⟩ := someCaptureParseFails_parts ho
  simp only [underscore_if_sol]
  cases hcap : captureSuffixDigits "uint" name with
  | none => exact intStage_fallthrough h1 h4 hmi hmb hoi hob
  | some ds =>
    dsimp only
    rw [parse_ok_of_fails_false hou hcap]
    dsimp only
    unfold matchesUintAligned at hmu
    rw [hcap] at hmu
    rw [if_neg (by simpa using hmu)]
    exact intStage_fallthrough h1 h4 hmi hmb hoi hob

/-! ## Claims -/

/-- C1, counterexample: the escaper is not total as claimed.  On the
input `uint18446744073709551616` — width `2 ^ 64`, a digit group whose
numeric value exceeds the machine word size — `caps[1].parse().unwrap()`
panics (modelled as `none`), so no output string is returned. -/
theorem escape_total_cex :
    underscore_if_sol "uint18446744073709551616" = none := by decide

/-- C1 (amended): the escaper returns a defined output string for every
input in which no numeric-pattern capture fails to parse as `usize`;
excluded are exactly the captured digit groups on which the width
parse's `unwrap` panics — those containing a non-ASCII Unicode digit
(matched by the Unicode-aware `\d` but rejected by `parse`), and those
whose value exceeds the machine word size. -/
theorem escape_total_amended (name : String) (h : someCaptureParseFails name = false) :
    ∃ out, underscore_if_sol name = some out :=
  uif_total h

/-- C1, witness: the amended totality theorem evaluated at `uint256`. -/
theorem escape_total_amended_witness :
    ∃ out, underscore_if_sol "uint256" = some out :=
  escape_total_amended "uint256" (by decide)

/-- C2: if the render procedure fails with a formatting error, the driver
`print_abi` fails with that same error — the failure is not swallowed —
and the final output is exactly what had been written when the failure
happened, so nothing further is attempted afterward. -/
theorem print_abi_propagates_error (g : GenerateAbiImpl) (out : String) (e : FmtError)
    (h : g.fmt_abi header = (out, Except.error e)) :
    print_abi g = (out, Except.error e) := by
  simp only [print_abi, AbiPrinter.fmt, h]

/-- An entity whose render procedure rejects immediately (simulated sink
rejection), writing nothing. -/
def failingEntity : GenerateAbiImpl where
  NAME := "Failing"
  fmt_abi := fun f => (f, Except.error ⟨⟩)

/-- C2, witness: with a render procedure that rejects immediately,
`print_abi` fails with that error and only the header was written. -/
theorem print_abi_propagates_error_witness :
    print_abi failingEntity = (header, Except.error ⟨⟩) :=
  print_abi_propagates_error failingEntity header ⟨⟩ rfl

/-- C3, counterexample: at width `N = 2 ^ 64 + 8` — divisible by 8 — the
claimed equality `escape("uint" ++ N) = " _uint" ++ N` fails: the width
exceeds `usize::MAX`, so the escaper panics instead of returning. -/
theorem escape_uint_int_cex :
    18446744073709551624 % 8 = 0 ∧
      underscore_if_sol "uint18446744073709551624" ≠
        some " _uint18446744073709551624" := by
  exact ⟨by decide, by decide⟩

/-- C3 (amended): for every width written as a nonempty ASCII digit
string `ds` whose value fits in `usize`, `escape("uint" ++ ds)` is
`" _uint" ++ ds` when the value is divisible by 8 and `" uint" ++ ds`
(unescaped) otherwise, and likewise for `int`. -/
theorem escape_uint_int_amended (ds : List Char) (h : isAsciiDigits ds = true)
    (hle : digitsVal ds ≤ USIZE_MAX) :
    underscore_if_sol ("uint" ++ String.mk ds) =
        some ((if digitsVal ds % 8 = 0 then " _uint" else " uint") ++ String.mk ds) ∧
      underscore_if_sol ("int" ++ String.mk ds) =
        some ((if digitsVal ds % 8 = 0 then " _int" else " int") ++ String.mk ds) :=
  ⟨uif_eval_uint h hle, uif_eval_int h hle⟩

/-- C3, witness: the amended theorem evaluated at widths 256 and 7,
giving `escape("uint256") = " _uint256"` and `escape("uint7") = " uint7"`. -/
theorem escape_uint_int_amended_witness :
    underscore_if_sol "uint256" = some " _uint256" ∧
      underscore_if_sol "uint7" = some " uint7" :=
  ⟨(escape_uint_int_amended ['2', '5', '6'] (by decide) (by decide)).1,
   (escape_uint_int_amended ['7'] (by decide) (by decide)).1⟩

/-- C4, counterexample: at width `N = 2 ^ 64` — greater than 32 — the
claimed equality `escape("bytes" ++ N) = " bytes" ++ N` fails: the width
exceeds `usize::MAX`, so the escaper panics instead of returning. -/
theorem escape_bytes_cex :
    32 < 18446744073709551616 ∧
      underscore_if_sol "bytes18446744073709551616" ≠
        some " bytes18446744073709551616" := by
  exact ⟨by decide, by decide⟩

/-- C4 (amended): for every width written as a nonempty ASCII digit
string `ds` whose value fits in `usize`, `escape("bytes" ++ ds)` is
`" _bytes" ++ ds` when the value is at most 32 and `" bytes" ++ ds`
(unescaped) otherwise. -/
theorem escape_bytes_amended (ds : List Char) (h : isAsciiDigits ds = true)
    (hle : digitsVal ds ≤ USIZE_MAX) :
    underscore_if_sol ("bytes" ++ String.mk ds) =
      some ((if digitsVal ds ≤ 32 then " _bytes" else " bytes") ++ String.mk ds) :=
  uif_eval_bytes h hle

/-- C4, witness: the amended theorem evaluated at widths 32 and 33,
giving `escape("bytes32") = " _bytes32"` and `escape("bytes33") = " bytes33"`. -/
theorem escape_bytes_amended_witness :
    underscore_if_sol "bytes32" = some " _bytes32" ∧
      underscore_if_sol "bytes33" = some " bytes33" :=
  ⟨escape_bytes_amended ['3', '2'] (by decide) (by decide),
   escape_bytes_amended ['3', '3'] (by decide) (by decide)⟩

/-- C5: every word of the fixed reserved table — the bare type names
`address`, `bool`, `int`, `uint`, the words `is`, `contract`,
`interface`, and the reserved keywords `after` … `var` — escapes to
`" _" ++ word`, and matching is case-sensitive exact equality only:
`Address` is not escaped. -/
theorem escape_reserved_words :
    (∀ w ∈ reservedWords, underscore_if_sol w = some (" _" ++ w)) ∧
      underscore_if_sol "Address" = some " Address" := by
  exact ⟨by decide, by decide⟩

/-- C5, witness: the reserved-word theorem evaluated at `switch`. -/
theorem escape_reserved_words_witness :
    underscore_if_sol "switch" = some " _switch" :=
  escape_reserved_words.1 "switch" (by decide)

/-- C6, counterexample: `uint18446744073709551617` is nonempty, matches
none of the reserved patterns (the width `2 ^ 64 + 1` is not divisible
by 8) and is no reserved word, yet the escaper does not return
`" " ++ name`: the width exceeds `usize::MAX` and the parse panics. -/
theorem escape_unescaped_cex :
    "uint18446744073709551617" ≠ "" ∧
      matchesEscapedNumeric "uint18446744073709551617" = false ∧
      "uint18446744073709551617" ∉ reservedWords ∧
      underscore_if_sol "uint18446744073709551617" ≠
        some (" " ++ "uint18446744073709551617") := by
  exact ⟨by decide, by decide, by decide, by decide⟩

/-- C6 (amended): every nonempty name that matches none of the reserved
patterns — not a byte-aligned `uint<N>`/`int<N>`, not a `bytes<N>` with
`N ≤ 32`, not a listed reserved word — and whose numeric captures (if
any) parse as `usize` (all-ASCII digits of value at most `usize::MAX`;
a capture with a non-ASCII Unicode digit panics instead) escapes to
exactly one leading space followed by the name verbatim. -/
theorem escape_unescaped_amended (name : String) (h1 : name ≠ "")
    (h2 : matchesEscapedNumeric name = false) (h3 : someCaptureParseFails name = false)
    (h4 : name ∉ reservedWords) :
    underscore_if_sol name = some (" " ++ name) :=
  uif_fallthrough h1 h2 h3 h4

/-- C6, witness: the amended theorem evaluated at `foo`. -/
theorem escape_unescaped_amended_witness :
    underscore_if_sol "foo" = some " foo" :=
  escape_unescaped_amended "foo" (by decide) (by decide) (by decide) (by decide)

/-- C7: on the empty input the escaper returns the empty string — no
leading space, no underscore (the source reaches this as the first arm of
the final `match`, after the numeric-pattern checks, which cannot match
the empty string). -/
theorem escape_empty : underscore_if_sol "" = some "" := by decide

/-- C8: `print_abi` produces exactly the fixed four-line header comment
block, one blank line (both given verbatim by `header`), then the
entity's rendered fragment with no trailing modification. -/
theorem print_abi_output (g : GenerateAbiImpl) (frag : String)
    (h : ∀ f, g.fmt_abi f = (f ++ frag, Except.ok ())) :
    print_abi g = (header ++ frag, Except.ok ()) := by
  simp only [print_abi, AbiPrinter.fmt, h]

/-- An entity whose fragment is the literal text
`function foo() external;`. -/
def fooEntity : GenerateAbiImpl where
  NAME := "Foo"
  fmt_abi := fun f => (f ++ "function foo() external;", Except.ok ())

/-- C8, witness: the driver applied to an entity whose fragment is the
literal text `function foo() external;`. -/
theorem print_abi_output_witness :
    print_abi fooEntity = (header ++ "function foo() external;", Except.ok ()) :=
  print_abi_output fooEntity "function foo() external;" (fun _ => rfl)

/-- C9: the escaper is deterministic and side-effect-free — any two
evaluations on the same input string return the same output; in this
embedding it is a pure function of the input string alone, with no other
state to depend on. -/
theorem escape_deterministic (s₁ s₂ : String) (h : s₁ = s₂) :
    underscore_if_sol s₁ = underscore_if_sol s₂ := by rw [h]

/-- C9, witness: determinism evaluated at `uint8`. -/
theorem escape_deterministic_witness :
    underscore_if_sol "uint8" = underscore_if_sol "uint8" :=
  escape_deterministic "uint8" "uint8" rfl

/-- C10: widths are compared by numeric value, not by their digit
string — zero widths and leading-zero widths satisfy the escaping
predicates: `uint0`, `int0`, `bytes0`, `uint016` and `bytes032` are all
escaped. -/
theorem escape_leading_zero_widths :
    underscore_if_sol "uint0" = some " _uint0" ∧
      underscore_if_sol "int0" = some " _int0" ∧
      underscore_if_sol "bytes0" = some " _bytes0" ∧
      underscore_if_sol "uint016" = some " _uint016" ∧
      underscore_if_sol "bytes032" = some " _bytes032" := by
  exact ⟨by decide, by decide, by decide, by decide, by decide⟩

end StylusAbi
